import Mathlib

/-! NRF_TELEM_QC: the serial-to-radio bridge sketch `src/main.cpp`

A shallow embedding of the two functions of the sketch, `setup()` and `loop()`.

The sketch talks to two libraries that are not part of the repository: the
Arduino `Serial` stream and the `RF24` radio driver.  Every call the sketch
makes on them is recorded, in program order, as an `Event`; what the libraries
answer (is the serial port ready, did `radio.begin()` succeed, did
`radio.write` succeed, is there an acknowledgement payload) and the bytes
that arrive on the serial port while `loop()` runs are explicit inputs of the
model.  The effect of the configuration calls on the radio is
replayed on a record `Radio`, which follows the `RadioConfig` / `Pipe` data
model of the specification.

Bytes are natural numbers below 256, buffers are lists of bytes.
-/

namespace NrfTelem

/-! ## Constants of `RF24.h` used by the sketch -/

/-- Power amplifier levels of `RF24.h` (`rf24_pa_dbm_e`). -/
inductive rf24_pa_dbm_e where
  | RF24_PA_MIN
  | RF24_PA_LOW
  | RF24_PA_HIGH
  | RF24_PA_MAX
  deriving DecidableEq, Repr

/-- Air data rates of `RF24.h` (`rf24_datarate_e`). -/
inductive rf24_datarate_e where
  | RF24_1MBPS
  | RF24_2MBPS
  | RF24_250KBPS
  deriving DecidableEq, Repr

/-- CRC lengths of `RF24.h` (`rf24_crclength_e`). -/
inductive rf24_crclength_e where
  | RF24_CRC_DISABLED
  | RF24_CRC_8
  | RF24_CRC_16
  deriving DecidableEq, Repr

open rf24_pa_dbm_e rf24_datarate_e rf24_crclength_e

/-! ## Globals of the sketch -/

/-- The global `uint8_t address[][6] = {"2PC00", "2QC01"}`: two rows of six
bytes, the five characters and the terminating NUL. -/
def address : List (List Nat) :=
  [[0x32, 0x50, 0x43, 0x30, 0x30, 0], [0x32, 0x51, 0x43, 0x30, 0x31, 0]]

/-- The global `bool radioNumber = 0` (its initial value). -/
def radioNumber : Bool := false

/-- Row `address[i]` of the global table (the empty list outside the table). -/
def addressRow (i : Nat) : List Nat := address.getD i []

/-! ## The call trace -/

/-- One call of the sketch on the `Serial` stream or on the `RF24` driver,
with the arguments it passes.  A buffer argument is recorded as the bytes the
callee is given to read (the first `len` bytes of the buffer). -/
inductive Event where
  /-- The call `Serial.begin(baud)`. -/
  | serialBegin (baud : Nat)
  /-- The call `radio.begin()`. -/
  | radioBegin
  /-- The call `radio.setPALevel(level)`. -/
  | setPALevel (level : rf24_pa_dbm_e)
  /-- The call `radio.setChannel(channel)`. -/
  | setChannel (channel : Nat)
  /-- The call `radio.setDataRate(rate)`. -/
  | setDataRate (rate : rf24_datarate_e)
  /-- The call `radio.setAddressWidth(width)`. -/
  | setAddressWidth (width : Nat)
  /-- The call `radio.setCRCLength(length)`. -/
  | setCRCLength (length : rf24_crclength_e)
  /-- The call `radio.enableDynamicPayloads()`. -/
  | enableDynamicPayloads
  /-- The call `radio.enableAckPayload()`. -/
  | enableAckPayload
  /-- The call `radio.openWritingPipe(addr)`. -/
  | openWritingPipe (addr : List Nat)
  /-- The call `radio.openReadingPipe(pipe, addr)`. -/
  | openReadingPipe (pipe : Nat) (addr : List Nat)
  /-- The call `radio.stopListening()`. -/
  | stopListening
  /-- The call `Serial.available()`, with the value it returned. -/
  | serialAvailable (result : Int)
  /-- The call `Serial.readBytes(buffer, length)`. -/
  | serialReadBytes (length : Nat)
  /-- The call `radio.write(buf, len)`: the first `len` bytes of `buf`, and `len`. -/
  | radioWrite (payload : List Nat) (len : Nat)
  /-- The call `radio.available(&pipe)`. -/
  | radioAvailable
  /-- The call `radio.getDynamicPayloadSize()`, with the value it returned. -/
  | getDynamicPayloadSize (result : Nat)
  /-- The call `radio.read(buf, len)`. -/
  | radioRead (len : Nat)
  /-- The call `Serial.write(buffer, size)`: the first `size` bytes of `buffer`, and `size`. -/
  | serialWrite (data : List Nat) (size : Nat)
  deriving DecidableEq, Repr

/-- The ten configuration calls of `setup()`, from `setPALevel` to `stopListening`. -/
def Event.isConfig : Event → Bool
  | .setPALevel _ => true
  | .setChannel _ => true
  | .setDataRate _ => true
  | .setAddressWidth _ => true
  | .setCRCLength _ => true
  | .enableDynamicPayloads => true
  | .enableAckPayload => true
  | .openWritingPipe _ => true
  | .openReadingPipe _ _ => true
  | .stopListening => true
  | _ => false

/-! ## The radio record -/

/-- Modelled from the spec: the `RadioConfig` and `Pipe` records of the radio
driver (`RF24.h` is not part of the repository).  Each field holds what the
last matching setter recorded; `none` is "not set by the sketch yet".  The
pipe-0 shadow address of the driver is not part of the record. -/
structure Radio where
  /-- Field `paLevel` of `RadioConfig`. -/
  paLevel : Option rf24_pa_dbm_e
  /-- Field `channelIndex` of `RadioConfig`. -/
  channel : Option Nat
  /-- Field `dataRate` of `RadioConfig`. -/
  dataRate : Option rf24_datarate_e
  /-- Field `addressWidthBytes` of `RadioConfig`. -/
  addressWidth : Nat
  /-- Field `crcMode` of `RadioConfig`. -/
  crcLength : Option rf24_crclength_e
  /-- Field `dynamicPayloadsEnabled` of `RadioConfig`. -/
  dynamicPayloadsEnabled : Bool
  /-- Field `ackPayloadsEnabled` of `RadioConfig`. -/
  ackPayloadsEnabled : Bool
  /-- Address of the write target (`openWritingPipe`). -/
  writingAddress : Option (List Nat)
  /-- Addresses of the receive pipes, by pipe index (`openReadingPipe`). -/
  readingAddress : Nat → Option (List Nat)
  /-- Whether the link state is `Listening`. -/
  listening : Bool

/-- Modelled from the spec: the effect of one driver call on the radio record.
A setter records its argument; a pipe address is stored with the current
address width ("pipe address length always equals current
addressWidthBytes"), that is its first `addressWidth` bytes;
`enableAckPayload` sets its own flag only, so that "ACK payloads require
dynamic payloads" depends on the order of the calls; the data-path calls
(`write`, `available`, `getDynamicPayloadSize`, `read`) and the serial calls
leave the configuration alone. -/
def Radio.apply (r : Radio) : Event → Radio
  | .setPALevel l => { r with paLevel := some l }
  | .setChannel c => { r with channel := some c }
  | .setDataRate d => { r with dataRate := some d }
  | .setAddressWidth w => { r with addressWidth := w }
  | .setCRCLength c => { r with crcLength := some c }
  | .enableDynamicPayloads => { r with dynamicPayloadsEnabled := true }
  | .enableAckPayload => { r with ackPayloadsEnabled := true }
  | .openWritingPipe a => { r with writingAddress := some (a.take r.addressWidth) }
  | .openReadingPipe p a =>
      { r with readingAddress := fun i => if i = p then some (a.take r.addressWidth)
                                          else r.readingAddress i }
  | .stopListening => { r with listening := false }
  | _ => r

/-- The radio record after a sequence of calls, applied in order. -/
def Radio.replay (r : Radio) (calls : List Event) : Radio :=
  calls.foldl Radio.apply r

/-- The invariant of `RadioConfig`: ACK payloads require dynamic payloads. -/
def Radio.ackRequiresDynamic (r : Radio) : Prop :=
  r.ackPayloadsEnabled = true → r.dynamicPayloadsEnabled = true

instance (r : Radio) : Decidable r.ackRequiresDynamic := by
  unfold Radio.ackRequiresDynamic; infer_instance

/-- A radio record on which nothing has been configured: default address
width 5, dynamic payloads and ACK payloads disabled, no pipe opened. -/
def Radio.fresh : Radio where
  paLevel := none
  channel := none
  dataRate := none
  addressWidth := 5
  crcLength := none
  dynamicPayloadsEnabled := false
  ackPayloadsEnabled := false
  writingAddress := none
  readingAddress := fun _ => none
  listening := false

/-! ## `setup()` -/

/-- What the environment answers during `setup()`. -/
structure SetupEnv where
  /-- Value of `Serial` (its `operator bool`) at its `k`-th evaluation, from 0. -/
  serialReady : Nat → Bool
  /-- Value returned by `radio.begin()`. -/
  beginOk : Bool

/-- The loop `while (!Serial) { }`, started at the `k`-th evaluation of
`Serial`: every evaluation costs one unit of fuel; `none` is "still waiting
when the fuel ran out", `some n` is "left the loop after `n` evaluations". -/
def waitSerial (ready : Nat → Bool) : Nat → Nat → Option Nat
  | 0, _ => none
  | fuel + 1, k => if !ready k then waitSerial ready fuel (k + 1) else some (k + 1)

/-- The loop `while (1) { }`: every turn costs one unit of fuel, and the
condition is the constant 1, so the only way out is running out of fuel. -/
def holdForever : Nat → Option Unit
  | 0 => none
  | fuel + 1 => if (1 : Nat) ≠ 0 then holdForever fuel else some ()

/-- The outcome of running `setup()` on a fuel budget: the calls made so far,
and whether the function has returned. -/
structure SetupRun where
  /-- Calls made, in program order. -/
  trace : List Event
  /-- Whether `setup()` returned (false: still inside one of its loops). -/
  returned : Bool
  deriving DecidableEq, Repr

/-- The straight-line part of `setup()` after the `radio.begin()` check
(`setPALevel` ... `stopListening`), for the value `rn` of the global
`radioNumber`.  `address[radioNumber]` indexes with the bool as 0 or 1,
`address[!radioNumber]` with its negation. -/
def configure (rn : Bool) : List Event :=
  [ .setPALevel RF24_PA_MAX,
    .setChannel 0x6f,
    .setDataRate RF24_250KBPS,
    .setAddressWidth 3,
    .setCRCLength RF24_CRC_8,
    .enableDynamicPayloads,
    .enableAckPayload,
    .openWritingPipe (addressRow rn.toNat),
    .openReadingPipe 1 (addressRow (!rn).toNat),
    .stopListening ]

/-- The function `setup()`, run with `fuel` units for each of its two loops,
for the value `rn` of the global `radioNumber`. -/
def setup (fuel : Nat) (env : SetupEnv) (rn : Bool) : SetupRun :=
  let t0 := [Event.serialBegin 57600]
  match waitSerial env.serialReady fuel 0 with
  | none => ⟨t0, false⟩
  | some _ =>
    let t1 := t0 ++ [Event.radioBegin]
    if !env.beginOk then
      match holdForever fuel with
      | none => ⟨t1, false⟩
      | some _ => ⟨t1 ++ configure rn, true⟩
    else ⟨t1 ++ configure rn, true⟩

/-! ## `loop()` -/

/-- What the environment answers during one iteration of `loop()`. -/
structure LoopEnv where
  /-- Value returned by `radio.write`. -/
  report : Bool
  /-- The answer of `radio.available(&pipe)`: `none` is false, `some p` is true
  with `p` the acknowledgement payload at the head of the receive FIFO. -/
  ack : Option (List Nat)
  /-- Bytes that arrive on the serial port after the first evaluation of
  `Serial.available()` in the iteration and before the next call on `Serial`. -/
  arrived : List Nat

/-- The Arduino macro `min(a, b)`, that is `((a) < (b) ? (a) : (b))`, on `int`.
Being a macro, it evaluates the text of `b` in the comparison, with value
`b₁`, and, when the comparison fails, a second time for the result, with
value `b₂`. -/
def arduino_min (a b₁ b₂ : Int) : Int := if a < b₁ then a else b₂

/-- Conversion of an `int` argument to a `uint8_t` parameter. -/
def toUint8 (x : Int) : Nat := (x % 256).toNat

/-- A 33-byte buffer after `memset(buf, 0, sizeof(buf))`. -/
def zeroed : List Nat := List.replicate 33 0

/-- Copying the bytes `src` to the start of the buffer `buf`. -/
def store (src buf : List Nat) : List Nat := src ++ buf.drop src.length

/-- The call `Serial.available()`: the number of bytes waiting in the serial
receive queue `q`. -/
def Serial_available (q : List Nat) : Int := (q.length : Int)

/-- The call `Serial.readBytes(buffer, length)` on the serial receive queue
`q`: the oldest `length` bytes (all of them when fewer are queued) leave the
queue and are stored at the start of the buffer.  Returns the buffer and the
queue afterwards. -/
def Serial_readBytes (q buf : List Nat) (length : Nat) : List Nat × List Nat :=
  (store (q.take length) buf, q.drop length)

/-- Modelled from the spec: `radio.getDynamicPayloadSize()`, the length of the
frame `p` at the head of the receive FIFO, as a `uint8_t`. -/
def radio_getDynamicPayloadSize (p : List Nat) : Nat := p.length % 256

/-- Modelled from the spec: `radio.read(buf, len)`, which stores the first
`len` bytes of the frame `p` at the head of the receive FIFO at the start of
the buffer. -/
def radio_read (p buf : List Nat) (len : Nat) : List Nat := store (p.take len) buf

/-- One iteration of `loop()` on the serial receive queue `q`: the calls it
makes, in program order, and the queue it leaves.

The line `int available = min(32, Serial.available());` expands to
`((32) < (Serial.available()) ? (32) : (Serial.available()))`: the queue is
polled once for the comparison and, when it held at most 32 bytes, a second
time for the value, after the bytes `env.arrived` have come in; that second
answer is not compared with 32.  (A length above 33 would make
`Serial.readBytes` write past `payload[33]` in C; the list buffer of the
model just grows.) -/
def loop (env : LoopEnv) (q : List Nat) : List Event × List Nat :=
  let payload := zeroed
  let n₁ := Serial_available q
  let q := q ++ env.arrived
  let n₂ := Serial_available q
  let available := arduino_min 32 n₁ n₂
  let t := if 32 < n₁ then [Event.serialAvailable n₁]
           else [Event.serialAvailable n₁, Event.serialAvailable n₂]
  let rd := Serial_readBytes q payload available.toNat
  let payload := rd.1
  let len := toUint8 available
  let t := t ++ [Event.serialReadBytes available.toNat,
                 Event.radioWrite (payload.take len) len]
  let report := env.report
  if report then
    match env.ack with
    | some p =>
      let received := zeroed
      let bytes := radio_getDynamicPayloadSize p
      let received := radio_read p received bytes
      let t := t ++ [Event.radioAvailable, Event.getDynamicPayloadSize bytes,
                     Event.radioRead bytes]
      if received.headD 0 ≠ 0 ∨ bytes > 1 then
        (t ++ [Event.serialWrite (received.take bytes) bytes], rd.2)
      else
        (t, rd.2)
    | none => (t ++ [Event.radioAvailable], rd.2)
  else
    (t, rd.2)

/-- Successive iterations of `loop()`, one per element of `envs`; the only
bytes that arrive on the serial port are those of each `env.arrived`.  All
calls made, in order, and the queue left at the end. -/
def loops : List LoopEnv → List Nat → List Event × List Nat
  | [], q => ([], q)
  | env :: envs, q =>
    let r := loop env q
    let rs := loops envs r.2
    (r.1 ++ rs.1, rs.2)

/-- The payloads handed to `radio.write` in a trace, in order. -/
def radioWrites : List Event → List (List Nat)
  | [] => []
  | .radioWrite payload _ :: t => payload :: radioWrites t
  | _ :: t => radioWrites t

/-- The `Serial.write` calls of a trace, in order. -/
def serialWrites (t : List Event) : List Event :=
  t.filter fun e => match e with
    | .serialWrite _ _ => true
    | _ => false

/-- The `radio.write` calls of a trace, in order. -/
def radioWriteCalls (t : List Event) : List Event :=
  t.filter fun e => match e with
    | .radioWrite _ _ => true
    | _ => false

/-! ## Facts about `setup()` -/

theorem holdForever_none (fuel : Nat) : holdForever fuel = none := by
  induction fuel with
  | zero => rfl
  | succ n ih => simp [holdForever, ih]

theorem waitSerial_some (ready : Nat → Bool) (k : Nat) (hk : ready k = true) :
    ∀ fuel j, j ≤ k → k < j + fuel → ∃ n, waitSerial ready fuel j = some n := by
  intro fuel
  induction fuel with
  | zero => intro j h1 h2; omega
  | succ f ih =>
    intro j h1 h2
    by_cases hj : ready j = true
    · exact ⟨j + 1, by simp [waitSerial, hj]⟩
    · have hne : j ≠ k := fun h => hj (h ▸ hk)
      obtain ⟨n, hn⟩ := ih (j + 1) (by omega) (by omega)
      exact ⟨n, by simp [waitSerial, hj, hn]⟩

/-- When the serial port becomes ready and `radio.begin()` succeeds, `setup()`
returns after exactly the calls of its straight-line text. -/
theorem setup_ok (fuel k : Nat) (env : SetupEnv) (rn : Bool)
    (hk : env.serialReady k = true) (hf : k < fuel) (hb : env.beginOk = true) :
    setup fuel env rn
      = ⟨[Event.serialBegin 57600, Event.radioBegin] ++ configure rn, true⟩ := by
  obtain ⟨n, hn⟩ := waitSerial_some env.serialReady k hk fuel 0 (Nat.zero_le _) (by omega)
  simp [setup, hn, hb]

/-- When `radio.begin()` fails, `setup()` is stuck in one of its two loops. -/
theorem setup_begin_failed (fuel : Nat) (env : SetupEnv) (rn : Bool)
    (hb : env.beginOk = false) :
    setup fuel env rn = ⟨[Event.serialBegin 57600], false⟩ ∨
    setup fuel env rn = ⟨[Event.serialBegin 57600, Event.radioBegin], false⟩ := by
  unfold setup
  cases h : waitSerial env.serialReady fuel 0 with
  | none => left; rfl
  | some n => right; simp [hb, holdForever_none]

/-- Whatever the environment, the calls of `setup()` so far are an initial
segment of its straight-line text. -/
theorem setup_trace_cases (fuel : Nat) (env : SetupEnv) (rn : Bool) :
    (setup fuel env rn).trace = [Event.serialBegin 57600] ∨
    (setup fuel env rn).trace = [Event.serialBegin 57600, Event.radioBegin] ∨
    (setup fuel env rn).trace
      = [Event.serialBegin 57600, Event.radioBegin] ++ configure rn := by
  unfold setup
  cases h : waitSerial env.serialReady fuel 0 with
  | none => left; rfl
  | some n =>
    cases hb : env.beginOk with
    | false => right; left; simp [holdForever_none]
    | true => right; right; simp

/-- Every way of cutting a list in two is a cut at some length. -/
theorem split_eq_take {α : Type} (l p s : List α) (h : l = p ++ s) :
    ∃ n, n ≤ l.length ∧ p = l.take n := by
  refine ⟨p.length, ?_, ?_⟩
  · rw [h, List.length_append]; omega
  · rw [h]; simp

/-- C2: when `radio.begin()` succeeds (the serial port having become ready at
some poll `k` within the fuel) and `radioNumber` is 0, `setup()` returns, and
the radio record replayed over its calls, from any starting record, has
address width 3, channel 0x6f, CRC length 8-bit, dynamic payloads and ACK
payloads enabled, writing address "2PC" and pipe-1 reading address "2QC";
moreover at every point of `setup()` after the call that sets one of these
values, the record still holds that value. -/
theorem setup_records_configuration (fuel k : Nat) (env : SetupEnv) (r0 : Radio)
    (hk : env.serialReady k = true) (hf : k < fuel) (hb : env.beginOk = true) :
    (setup fuel env radioNumber).returned = true ∧
    ((r0.replay (setup fuel env radioNumber).trace).addressWidth = 3 ∧
     (r0.replay (setup fuel env radioNumber).trace).channel = some 0x6f ∧
     (r0.replay (setup fuel env radioNumber).trace).crcLength = some RF24_CRC_8 ∧
     (r0.replay (setup fuel env radioNumber).trace).dynamicPayloadsEnabled = true ∧
     (r0.replay (setup fuel env radioNumber).trace).ackPayloadsEnabled = true ∧
     (r0.replay (setup fuel env radioNumber).trace).writingAddress
        = some ("2PC".toList.map Char.toNat) ∧
     (r0.replay (setup fuel env radioNumber).trace).readingAddress 1
        = some ("2QC".toList.map Char.toNat)) ∧
    (∀ p s, (setup fuel env radioNumber).trace = p ++ s →
      (Event.setAddressWidth 3 ∈ p → (r0.replay p).addressWidth = 3) ∧
      (Event.setChannel 0x6f ∈ p → (r0.replay p).channel = some 0x6f) ∧
      (Event.setCRCLength RF24_CRC_8 ∈ p → (r0.replay p).crcLength = some RF24_CRC_8) ∧
      (Event.enableDynamicPayloads ∈ p → (r0.replay p).dynamicPayloadsEnabled = true) ∧
      (Event.enableAckPayload ∈ p → (r0.replay p).ackPayloadsEnabled = true) ∧
      (Event.openWritingPipe (addressRow 0) ∈ p →
        (r0.replay p).writingAddress = some ("2PC".toList.map Char.toNat)) ∧
      (Event.openReadingPipe 1 (addressRow 1) ∈ p →
        (r0.replay p).readingAddress 1 = some ("2QC".toList.map Char.toNat))) := by
  rw [setup_ok fuel k env radioNumber hk hf hb]
  refine ⟨rfl, ?_, ?_⟩
  · simp [Radio.replay, Radio.apply, configure, radioNumber, addressRow, address]
  · intro p s h
    obtain ⟨n, hn, rfl⟩ := split_eq_take _ p s h
    simp only [configure, radioNumber, List.length_append, List.length_cons,
      List.length_nil] at hn
    interval_cases n <;>
      simp [Radio.replay, Radio.apply, configure, radioNumber, addressRow, address]

/-- C2, at a concrete input: the serial port is ready at once and
`radio.begin()` succeeds. -/
theorem setup_records_configuration_witness :
    (⟨fun _ => true, true⟩ : SetupEnv).serialReady 0 = true ∧ 0 < 1 ∧
    (⟨fun _ => true, true⟩ : SetupEnv).beginOk = true ∧
    (setup 1 ⟨fun _ => true, true⟩ radioNumber).returned = true ∧
    (Radio.fresh.replay (setup 1 ⟨fun _ => true, true⟩ radioNumber).trace).addressWidth = 3 ∧
    (Radio.fresh.replay (setup 1 ⟨fun _ => true, true⟩ radioNumber).trace).channel
      = some 111 :=
  have h := setup_records_configuration 1 0 ⟨fun _ => true, true⟩ Radio.fresh rfl
    (by decide) rfl
  ⟨rfl, by decide, rfl, h.1, h.2.1.1, h.2.1.2.1⟩

/-- C6: if `radio.begin()` reports failure, then on every fuel budget
`setup()` has not returned and has made none of the ten configuration calls;
if it reports success (the serial port having become ready at some poll `k`),
then on every budget above `k` the function has returned and its
configuration calls are exactly `setPALevel`, `setChannel`, `setDataRate`,
`setAddressWidth`, `setCRCLength`, `enableDynamicPayloads`,
`enableAckPayload`, `openWritingPipe`, `openReadingPipe`, `stopListening`, in
that order, once each. -/
theorem setup_begin_gate (env : SetupEnv) (rn : Bool) :
    (env.beginOk = false →
      ∀ fuel, (setup fuel env rn).returned = false ∧
        ∀ e ∈ (setup fuel env rn).trace, e.isConfig = false) ∧
    (env.beginOk = true →
      ∀ k, env.serialReady k = true → ∀ fuel, k < fuel →
        (setup fuel env rn).returned = true ∧
        (setup fuel env rn).trace.filter Event.isConfig
          = [ Event.setPALevel RF24_PA_MAX,
              Event.setChannel 0x6f,
              Event.setDataRate RF24_250KBPS,
              Event.setAddressWidth 3,
              Event.setCRCLength RF24_CRC_8,
              Event.enableDynamicPayloads,
              Event.enableAckPayload,
              Event.openWritingPipe (addressRow rn.toNat),
              Event.openReadingPipe 1 (addressRow (!rn).toNat),
              Event.stopListening ]) := by
  constructor
  · intro hb fuel
    rcases setup_begin_failed fuel env rn hb with h | h <;> rw [h] <;>
      simp [Event.isConfig]
  · intro hb k hk fuel hf
    rw [setup_ok fuel k env rn hk hf hb]
    simp [configure, Event.isConfig, List.filter]

/-- C6, at concrete inputs: a failing `radio.begin()` on any budget, and a
successful one with the serial port ready at once. -/
theorem setup_begin_gate_witness :
    (∀ fuel, (setup fuel ⟨fun _ => true, false⟩ false).returned = false ∧
      ∀ e ∈ (setup fuel ⟨fun _ => true, false⟩ false).trace, e.isConfig = false) ∧
    (setup 1 ⟨fun _ => true, true⟩ false).returned = true :=
  ⟨fun fuel => (setup_begin_gate ⟨fun _ => true, false⟩ false).1 rfl fuel,
   ((setup_begin_gate ⟨fun _ => true, true⟩ false).2 rfl 0 rfl 1 (by decide)).1⟩

/-- C5: for each value `r` of `radioNumber`, when `setup()` runs to its end
its pipe-opening calls are `openWritingPipe(address[r])` and
`openReadingPipe(1, address[1 - r])`; and for two nodes set up with opposite
values, each node's recorded writing address is the other node's recorded
pipe-1 reading address. -/
theorem setup_pipes_cross (r : Bool) (fuel₁ k₁ fuel₂ k₂ : Nat) (env₁ env₂ : SetupEnv)
    (a b : Radio)
    (hk₁ : env₁.serialReady k₁ = true) (hf₁ : k₁ < fuel₁) (hb₁ : env₁.beginOk = true)
    (hk₂ : env₂.serialReady k₂ = true) (hf₂ : k₂ < fuel₂) (hb₂ : env₂.beginOk = true) :
    ((setup fuel₁ env₁ r).trace.filter
        (fun e => match e with
          | .openWritingPipe _ => true
          | .openReadingPipe _ _ => true
          | _ => false)
      = [ Event.openWritingPipe (addressRow r.toNat),
          Event.openReadingPipe 1 (addressRow (1 - r.toNat)) ]) ∧
    (a.replay (setup fuel₁ env₁ r).trace).writingAddress
      = (b.replay (setup fuel₂ env₂ (!r)).trace).readingAddress 1 ∧
    (b.replay (setup fuel₂ env₂ (!r)).trace).writingAddress
      = (a.replay (setup fuel₁ env₁ r).trace).readingAddress 1 ∧
    (a.replay (setup fuel₁ env₁ r).trace).writingAddress
      = some ((addressRow r.toNat).take 3) := by
  rw [setup_ok fuel₁ k₁ env₁ r hk₁ hf₁ hb₁, setup_ok fuel₂ k₂ env₂ (!r) hk₂ hf₂ hb₂]
  cases r <;> simp [Radio.replay, Radio.apply, configure, List.filter, addressRow, address]

/-- C5, at a concrete input: node 0 and node 1, both ready at once. -/
theorem setup_pipes_cross_witness :
    (Radio.fresh.replay (setup 1 ⟨fun _ => true, true⟩ false).trace).writingAddress
      = (Radio.fresh.replay (setup 1 ⟨fun _ => true, true⟩ true).trace).readingAddress 1 :=
  (setup_pipes_cross false 1 0 1 0 ⟨fun _ => true, true⟩ ⟨fun _ => true, true⟩
    Radio.fresh Radio.fresh rfl (by decide) rfl rfl (by decide) rfl).2.1

/-- C9: the first three bytes of `address[0]` are "2PC", those of `address[1]`
are "2QC", and they differ; so for every `radioNumber`, after `setup()` has run
to its end, the recorded writing address and the recorded pipe-1 reading
address are both three bytes long and differ. -/
theorem setup_addresses_distinct (r : Bool) (fuel k : Nat) (env : SetupEnv) (r0 : Radio)
    (hk : env.serialReady k = true) (hf : k < fuel) (hb : env.beginOk = true) :
    (addressRow 0).take 3 = "2PC".toList.map Char.toNat ∧
    (addressRow 1).take 3 = "2QC".toList.map Char.toNat ∧
    (addressRow 0).take 3 ≠ (addressRow 1).take 3 ∧
    (r0.replay (setup fuel env r).trace).addressWidth = 3 ∧
    ∃ w rd, (r0.replay (setup fuel env r).trace).writingAddress = some w ∧
      (r0.replay (setup fuel env r).trace).readingAddress 1 = some rd ∧
      w.length = 3 ∧ rd.length = 3 ∧ w ≠ rd := by
  rw [setup_ok fuel k env r hk hf hb]
  refine ⟨by decide, by decide, by decide, ?_, ?_⟩
  · simp [Radio.replay, Radio.apply, configure]
  · cases r <;>
      simp [Radio.replay, Radio.apply, configure, addressRow, address]

/-- C9, at a concrete input: node 1, ready at the third poll. -/
theorem setup_addresses_distinct_witness :
    ∃ w rd,
      (Radio.fresh.replay (setup 3 ⟨fun k => decide (2 ≤ k), true⟩ true).trace).writingAddress
        = some w ∧
      (Radio.fresh.replay (setup 3 ⟨fun k => decide (2 ≤ k), true⟩ true).trace).readingAddress 1
        = some rd ∧
      w.length = 3 ∧ rd.length = 3 ∧ w ≠ rd :=
  (setup_addresses_distinct true 3 2 ⟨fun k => decide (2 ≤ k), true⟩ Radio.fresh
    (by decide) (by decide) rfl).2.2.2.2

/-! ## The ACK-payload invariant along the whole call trace -/

theorem replay_append (r : Radio) (l₁ l₂ : List Event) :
    r.replay (l₁ ++ l₂) = (r.replay l₁).replay l₂ := by
  simp [Radio.replay, List.foldl_append]

/-- Only the configuration calls act on the radio record. -/
theorem apply_of_not_config (e : Event) (h : e.isConfig = false) (r : Radio) :
    r.apply e = r := by
  cases e <;> first | rfl | simp [Event.isConfig] at h

/-- The calls of one iteration of `loop()` are data-path and serial calls. -/
theorem loop_events_not_config (env : LoopEnv) (q : List Nat) :
    ∀ e ∈ (loop env q).1, e.isConfig = false := by
  unfold loop
  simp only []
  split
  · split
    · split <;> split_ifs <;> simp [Event.isConfig]
    · split_ifs <;> simp [Event.isConfig]
  · split_ifs <;> simp [Event.isConfig]

/-- The calls of one iteration of `loop()` do not act on the radio record. -/
theorem loop_events_inert (env : LoopEnv) (q : List Nat) :
    ∀ e ∈ (loop env q).1, ∀ r : Radio, r.apply e = r :=
  fun e he r => apply_of_not_config e (loop_events_not_config env q e he) r


theorem loops_events_inert (envs : List LoopEnv) :
    ∀ q, ∀ e ∈ (loops envs q).1, ∀ r : Radio, r.apply e = r := by
  induction envs with
  | nil => intro q e he; simp [loops] at he
  | cons env envs ih =>
    intro q e he r
    simp only [loops, List.mem_append] at he
    rcases he with h | h
    · exact loop_events_inert env q e h r
    · exact ih _ e h r

theorem replay_inert (l : List Event) (h : ∀ e ∈ l, ∀ r : Radio, r.apply e = r)
    (r : Radio) : r.replay l = r := by
  induction l with
  | nil => rfl
  | cons e l ih =>
    have he := h e (List.mem_cons_self _ _) r
    have hl := ih (fun e' h' => h e' (List.mem_cons_of_mem _ h'))
    simp only [Radio.replay, List.foldl_cons] at hl ⊢
    rw [he]; exact hl

/-- At every point of `setup()`, on a radio that starts with ACK payloads
disabled, ACK payloads are enabled only if dynamic payloads are. -/
theorem setup_points_invariant (fuel : Nat) (env : SetupEnv) (rn : Bool) (r0 : Radio)
    (ha : r0.ackPayloadsEnabled = false)
    (p s : List Event) (h : (setup fuel env rn).trace = p ++ s) :
    (r0.replay p).ackRequiresDynamic := by
  obtain ⟨n, hn, rfl⟩ := split_eq_take _ p s h
  rcases setup_trace_cases fuel env rn with h' | h' | h' <;> rw [h'] at hn ⊢ <;>
    simp only [configure, List.length_append, List.length_cons, List.length_nil] at hn <;>
    interval_cases n <;>
    simp [Radio.replay, Radio.apply, Radio.ackRequiresDynamic, configure, ha]

/-- C4: on a radio record that starts with ACK payloads disabled (whether or
not dynamic payloads are, so in particular when both are disabled), replaying any initial segment of the calls of `setup()`
followed by any number of iterations of `loop()` leaves a record in which ACK
payloads are enabled only if dynamic payloads are; in particular this holds of
the record at every `radio.write` call, of any length, zero included. -/
theorem ack_requires_dynamic_always (fuel : Nat) (env : SetupEnv) (rn : Bool)
    (envs : List LoopEnv) (q : List Nat) (r0 : Radio)
    (ha : r0.ackPayloadsEnabled = false) :
    (∀ p s, (setup fuel env rn).trace ++ (loops envs q).1 = p ++ s →
      (r0.replay p).ackRequiresDynamic) ∧
    (∀ p payload len s,
      (setup fuel env rn).trace ++ (loops envs q).1
        = p ++ Event.radioWrite payload len :: s →
      (r0.replay p).ackRequiresDynamic) := by
  have key : ∀ p s, (setup fuel env rn).trace ++ (loops envs q).1 = p ++ s →
      (r0.replay p).ackRequiresDynamic := by
    intro p s h
    rcases List.append_eq_append_iff.mp h with ⟨a', h1, _⟩ | ⟨c', h1, h2⟩
    · have hin : ∀ e ∈ a', ∀ r : Radio, r.apply e = r := by
        intro e he
        have : e ∈ (loops envs q).1 := by
          have := congrArg (fun l => e ∈ l) ‹(loops envs q).1 = a' ++ s›
          simp only [List.mem_append] at this
          exact this.mpr (Or.inl he)
        exact loops_events_inert envs q e this
      rw [h1, replay_append, replay_inert a' hin]
      exact setup_points_invariant fuel env rn r0 ha _ [] (by simp)
    · exact setup_points_invariant fuel env rn r0 ha p c' h1
  exact ⟨key, fun p payload len s h => key p _ h⟩

/-- C4, at a concrete input: a successful `setup()` followed by two
iterations of `loop()`, the second one writing a zero-length payload. -/
theorem ack_requires_dynamic_always_witness :
    Radio.fresh.dynamicPayloadsEnabled = false ∧ Radio.fresh.ackPayloadsEnabled = false ∧
    ∀ p s,
      (setup 1 ⟨fun _ => true, true⟩ false).trace
          ++ (loops [⟨true, none, []⟩, ⟨true, some [7], [9]⟩] [1, 2]).1 = p ++ s →
        (Radio.fresh.replay p).ackRequiresDynamic :=
  ⟨rfl, rfl, (ack_requires_dynamic_always 1 ⟨fun _ => true, true⟩ false
    [⟨true, none, []⟩, ⟨true, some [7], [9]⟩] [1, 2] Radio.fresh rfl).1⟩


/-! ## Facts about `loop()` -/

/-- The frame read from the radio, for a frame of at most 32 bytes: the size
is its length, the 33-byte buffer starts with the frame, and its first byte
is the first byte of the frame (zero, from `memset`, for an empty frame). -/
theorem received_frame (p : List Nat) (hp : p.length ≤ 32) :
    radio_getDynamicPayloadSize p = p.length ∧
    (radio_read p zeroed p.length).take p.length = p ∧
    (radio_read p zeroed p.length).headD 0 = p.headD 0 := by
  refine ⟨?_, ?_, ?_⟩
  · unfold radio_getDynamicPayloadSize; omega
  · simp [radio_read, store]
  · cases p with
    | nil => rfl
    | cons a t => simp [radio_read, store]


/-- The `Serial.write` calls of one iteration, for acknowledgement frames of at
most 32 bytes. -/
theorem loop_serialWrites (env : LoopEnv) (q : List Nat)
    (hp : ∀ p, env.ack = some p → p.length ≤ 32) :
    serialWrites (loop env q).1 =
      match env.report, env.ack with
      | true, some p =>
          if p.headD 0 ≠ 0 ∨ 1 < p.length then [Event.serialWrite p p.length] else []
      | _, _ => [] := by
  cases hr : env.report with
  | false =>
    unfold loop
    simp only [hr, Bool.false_eq_true, if_false]
    split_ifs <;> simp [serialWrites, List.filter]
  | true =>
    cases ha : env.ack with
    | none =>
      unfold loop
      simp only [hr, ha, if_true]
      split_ifs <;> simp [serialWrites, List.filter]
    | some p =>
      obtain ⟨e1, e2, e3⟩ := received_frame p (hp p ha)
      unfold loop
      simp only [hr, ha, if_true, e1, e2, e3, gt_iff_lt]
      split_ifs <;> simp [serialWrites, List.filter]

/-- C7: in one iteration of `loop()`, with an acknowledgement frame of at most
32 bytes, `Serial.write` is called if and only if `radio.write` returned
true, `radio.available` returned true, and the first received byte is
non-zero or the received size is greater than 1; when it is called, it is
called exactly once, with exactly the received bytes and their count.  A
received single byte 0x00, a received size of 0, and a failed `radio.write`
each give no `Serial.write` call. -/
theorem serial_write_iff (env : LoopEnv) (q : List Nat)
    (hp : ∀ p, env.ack = some p → p.length ≤ 32) :
    ((∃ d n, Event.serialWrite d n ∈ (loop env q).1) ↔
      (env.report = true ∧ ∃ p, env.ack = some p ∧ (p.headD 0 ≠ 0 ∨ 1 < p.length))) ∧
    (∀ d n, Event.serialWrite d n ∈ (loop env q).1 →
      env.ack = some d ∧ n = d.length ∧
      serialWrites (loop env q).1 = [Event.serialWrite d n]) ∧
    (env.ack = some [0] → serialWrites (loop env q).1 = []) ∧
    (env.ack = some [] → serialWrites (loop env q).1 = []) ∧
    (env.report = false → serialWrites (loop env q).1 = []) := by
  have hs := loop_serialWrites env q hp
  have hmem : ∀ d n, Event.serialWrite d n ∈ (loop env q).1 ↔
      Event.serialWrite d n ∈ serialWrites (loop env q).1 := by
    intro d n
    unfold serialWrites
    rw [List.mem_filter]
    exact ⟨fun h => ⟨h, rfl⟩, fun h => h.1⟩
  cases hr : env.report with
  | false =>
    rw [hr] at hs
    simp only [] at hs
    simp [hmem, hs]
  | true =>
    cases ha : env.ack with
    | none =>
      rw [hr, ha] at hs
      simp only [] at hs
      simp [hmem, hs]
    | some p =>
      rw [hr, ha] at hs
      simp only [] at hs
      by_cases hc : p.headD 0 ≠ 0 ∨ 1 < p.length
      · rw [if_pos hc] at hs
        refine ⟨?_, ?_, ?_, ?_, ?_⟩
        · simp only [hmem, hs]
          exact ⟨fun _ => ⟨trivial, p, rfl, hc⟩, fun _ => ⟨p, p.length, by simp⟩⟩
        · intro d n h
          rw [hmem, hs, List.mem_singleton] at h
          injection h with h1 h2
          subst h1 h2
          exact ⟨rfl, rfl, hs⟩
        · intro h
          injection h with h
          subst h
          simp at hc
        · intro h
          injection h with h
          subst h
          simp at hc
        · intro h; cases h
      · rw [if_neg hc] at hs
        refine ⟨?_, ?_, ?_, ?_, ?_⟩
        · simp only [hmem, hs]
          constructor
          · rintro ⟨d, n, h⟩; simp at h
          · rintro ⟨_, p', h1, h2⟩
            injection h1 with h1
            subst h1
            exact absurd h2 hc
        · intro d n h
          rw [hmem, hs] at h
          simp at h
        · intro _; exact hs
        · intro _; exact hs
        · intro h; cases h

/-- C7, at a concrete input: a two-byte acknowledgement frame after a
successful write. -/
theorem serial_write_iff_witness :
    (∀ p, (⟨true, some [0, 7], []⟩ : LoopEnv).ack = some p → p.length ≤ 32) ∧
    ((∃ d n, Event.serialWrite d n ∈ (loop ⟨true, some [0, 7], []⟩ [1, 2, 3]).1) ↔
      ((⟨true, some [0, 7], []⟩ : LoopEnv).report = true ∧
        ∃ p, (⟨true, some [0, 7], []⟩ : LoopEnv).ack = some p ∧
          (p.headD 0 ≠ 0 ∨ 1 < p.length))) :=
  have hp : ∀ p, (⟨true, some [0, 7], []⟩ : LoopEnv).ack = some p → p.length ≤ 32 := by
    intro p h
    injection h with h
    subst h
    decide
  ⟨hp, (serial_write_iff ⟨true, some [0, 7], []⟩ [1, 2, 3] hp).1⟩

/-- C1 fails as stated: `radio.write` succeeds and `radio.available` reports
the one-byte acknowledgement payload 0x00, yet the iteration makes no
`Serial.write` call at all. -/
theorem ack_single_zero_not_forwarded :
    (⟨true, some [0], []⟩ : LoopEnv).report = true ∧
    (⟨true, some [0], []⟩ : LoopEnv).ack = some [0] ∧
    serialWrites (loop ⟨true, some [0], []⟩ [1, 2, 3]).1 = [] ∧
    Event.serialWrite [0] 1 ∉ (loop ⟨true, some [0], []⟩ [1, 2, 3]).1 := by
  decide

/-- C1, amended: in an iteration of `loop()` in which `radio.write` reports
success and `radio.available` reports an acknowledgement payload of at most
32 bytes whose first byte is non-zero or whose length is greater than 1, the
iteration makes exactly one `Serial.write` call, with all bytes of that
payload, in order, and their count. -/
theorem ack_forwarded (env : LoopEnv) (q p : List Nat) (hr : env.report = true)
    (ha : env.ack = some p) (hp : p.length ≤ 32)
    (hc : p.headD 0 ≠ 0 ∨ 1 < p.length) :
    serialWrites (loop env q).1 = [Event.serialWrite p p.length] := by
  have hp' : ∀ p', env.ack = some p' → p'.length ≤ 32 := by
    intro p' h
    rw [ha] at h
    injection h with h
    subst h
    exact hp
  rw [loop_serialWrites env q hp', hr, ha]
  simp only []
  rw [if_pos hc]

/-- C1, amended, at a concrete input: the acknowledgement payload "OK". -/
theorem ack_forwarded_witness :
    serialWrites (loop ⟨true, some [79, 75], []⟩ [1, 2, 3]).1 = [Event.serialWrite [79, 75] 2] :=
  ack_forwarded ⟨true, some [79, 75], []⟩ [1, 2, 3] [79, 75] rfl rfl (by decide) (by decide)


/-! ## The length handed to `radio.write` -/

/-- The value of `available` in `loop()`: 32 when the first poll found more
than 32 bytes, else whatever the second poll finds. -/
theorem available_eq (q a : List Nat) :
    arduino_min 32 (Serial_available q) (Serial_available (q ++ a))
      = ((if 32 < q.length then 32 else q.length + a.length : Nat) : Int) := by
  unfold arduino_min Serial_available
  by_cases h : 32 < q.length
  · have h' : (32 : Int) < (q.length : Int) := by exact_mod_cast h
    rw [if_pos h', if_pos h]; rfl
  · have h' : ¬ (32 : Int) < (q.length : Int) := by
      intro h''
      exact h (by exact_mod_cast h'')
    rw [if_neg h', if_neg h, List.length_append]

/-- Shape of one iteration, whatever the environment: the `radio.write` call
it makes and the queue it leaves, in terms of the value of `available`. -/
theorem loop_write (env : LoopEnv) (q : List Nat) :
    radioWriteCalls (loop env q).1
      = [Event.radioWrite
          ((store ((q ++ env.arrived).take
              (arduino_min 32 (Serial_available q)
                (Serial_available (q ++ env.arrived))).toNat) zeroed).take
            (toUint8 (arduino_min 32 (Serial_available q)
              (Serial_available (q ++ env.arrived)))))
          (toUint8 (arduino_min 32 (Serial_available q)
            (Serial_available (q ++ env.arrived))))] ∧
    radioWrites (loop env q).1
      = [(store ((q ++ env.arrived).take
              (arduino_min 32 (Serial_available q)
                (Serial_available (q ++ env.arrived))).toNat) zeroed).take
            (toUint8 (arduino_min 32 (Serial_available q)
              (Serial_available (q ++ env.arrived))))] ∧
    (loop env q).2
      = (q ++ env.arrived).drop
          (arduino_min 32 (Serial_available q) (Serial_available (q ++ env.arrived))).toNat := by
  unfold loop
  simp only []
  split
  · split
    · split <;> split_ifs <;>
        simp [radioWriteCalls, radioWrites, List.filter, Serial_readBytes]
    · split_ifs <;> simp [radioWriteCalls, radioWrites, List.filter, Serial_readBytes]
  · split_ifs <;> simp [radioWriteCalls, radioWrites, List.filter, Serial_readBytes]

/-- When no byte arrives between the two polls of `Serial.available()`, one
iteration on a queue `q` hands to `radio.write` the first 32 bytes of `q` (all
of `q` when it is shorter), with their count, and leaves the others queued. -/
theorem loop_of_no_arrival (env : LoopEnv) (q : List Nat) (h : env.arrived = []) :
    radioWriteCalls (loop env q).1 = [Event.radioWrite (q.take 32) (min 32 q.length)] ∧
    radioWrites (loop env q).1 = [q.take 32] ∧
    (loop env q).2 = q.drop 32 := by
  obtain ⟨h1, h2, h3⟩ := loop_write env q
  have hav : arduino_min 32 (Serial_available q) (Serial_available (q ++ env.arrived))
      = ((min 32 q.length : Nat) : Int) := by
    rw [available_eq, h]
    congr 1
    simp only [List.length_nil, Nat.add_zero]
    split_ifs <;> omega
  have hn : (((min 32 q.length : Nat) : Int)).toNat = min 32 q.length := Int.toNat_ofNat _
  have hu : toUint8 ((min 32 q.length : Nat) : Int) = min 32 q.length := by
    unfold toUint8
    have := Nat.min_le_left 32 q.length
    omega
  have ht : q.take (min 32 q.length) = q.take 32 := by
    rw [Nat.min_comm, ← List.take_take]; simp
  have hd : q.drop (min 32 q.length) = q.drop 32 := by
    rcases Nat.le_total 32 q.length with h' | h'
    · rw [Nat.min_eq_left h']
    · rw [Nat.min_eq_right h', List.drop_of_length_le h', List.drop_of_length_le (le_refl _)]
  have hp : (store (q.take 32) zeroed).take (min 32 q.length) = q.take 32 := by
    unfold store
    have h2 : (q.take 32).length = min 32 q.length := by simp
    rw [← h2, List.take_left]
  rw [hav, hn, hu, h, List.append_nil, ht, hp] at h1 h2
  rw [hav, hn, h, List.append_nil, hd] at h3
  exact ⟨h1, h2, h3⟩

/-- The length handed to `radio.write`, in general (for fewer than 256 bytes
in all): 32 when the first poll found more than 32 bytes; otherwise the
number of bytes queued at the second poll, which exceeds 32 as soon as enough
bytes have arrived in between. -/
theorem loop_write_length (env : LoopEnv) (q : List Nat)
    (hlt : q.length + env.arrived.length < 256) :
    ∃ payload, radioWriteCalls (loop env q).1
      = [Event.radioWrite payload
          (if 32 < q.length then 32 else q.length + env.arrived.length)] := by
  have h := (loop_write env q).1
  rw [available_eq] at h
  have hu : toUint8 ((if 32 < q.length then 32 else q.length + env.arrived.length : Nat) : Int)
      = if 32 < q.length then 32 else q.length + env.arrived.length := by
    unfold toUint8
    split_ifs <;> omega
  rw [hu] at h
  exact ⟨_, h⟩

/-- C3 fails on the code: with 32 bytes queued at the first evaluation of
`Serial.available()` and one more byte arriving before the second, the
comparison `32 < 32` fails, the second answer 33 becomes `available`, and
`radio.write` is handed 33 bytes with length 33, which is not `min(32, 32)`
and is above 32. -/
theorem write_length_exceeds_32 :
    Serial_available (List.range 32) = 32 ∧
    radioWriteCalls (loop ⟨false, none, [99]⟩ (List.range 32)).1
      = [Event.radioWrite (List.range 32 ++ [99]) 33] ∧
    (∃ payload len, Event.radioWrite payload len ∈ (loop ⟨false, none, [99]⟩ (List.range 32)).1 ∧
      32 < len ∧ 33 ≤ payload.length) := by
  refine ⟨by decide, by decide, List.range 32 ++ [99], 33, by decide, by decide, by decide⟩

/-! ## Successive iterations -/

theorem radioWrites_append (l₁ l₂ : List Event) :
    radioWrites (l₁ ++ l₂) = radioWrites l₁ ++ radioWrites l₂ := by
  induction l₁ with
  | nil => rfl
  | cons e l ih => cases e <;> simp [radioWrites, ih]

theorem loops_radioWrites_cons (env : LoopEnv) (envs : List LoopEnv) (q : List Nat)
    (h : env.arrived = []) :
    radioWrites (loops (env :: envs) q).1
      = q.take 32 :: radioWrites (loops envs (q.drop 32)).1 := by
  obtain ⟨_, h2, h3⟩ := loop_of_no_arrival env q h
  simp only [loops, radioWrites_append, h2, h3]
  rfl

theorem loops_queue (envs : List LoopEnv) :
    (∀ env ∈ envs, env.arrived = []) →
    ∀ q, (loops envs q).2 = q.drop (32 * envs.length) := by
  induction envs with
  | nil => intro _ q; simp [loops]
  | cons env envs ih =>
    intro h q
    have h3 := (loop_of_no_arrival env q (h env (List.mem_cons_self _ _))).2.2
    have ih' := ih (fun e he => h e (List.mem_cons_of_mem _ he))
    simp only [loops, h3, ih', List.drop_drop, List.length_cons]
    congr 1
    omega

theorem loops_writes_length (envs : List LoopEnv) :
    (∀ env ∈ envs, env.arrived = []) →
    ∀ q, (radioWrites (loops envs q).1).length = envs.length := by
  induction envs with
  | nil => intro _ q; rfl
  | cons env envs ih =>
    intro h q
    rw [loops_radioWrites_cons env envs q (h env (List.mem_cons_self _ _))]
    simp [ih (fun e he => h e (List.mem_cons_of_mem _ he))]

theorem loops_writes_flatten (envs : List LoopEnv) :
    (∀ env ∈ envs, env.arrived = []) →
    ∀ q, (radioWrites (loops envs q).1).flatten = q.take (32 * envs.length) := by
  induction envs with
  | nil => intro _ q; simp [loops, radioWrites]
  | cons env envs ih =>
    intro h q
    rw [loops_radioWrites_cons env envs q (h env (List.mem_cons_self _ _)),
      List.flatten_cons, ih (fun e he => h e (List.mem_cons_of_mem _ he)),
      List.length_cons, Nat.mul_succ, Nat.add_comm, List.take_add]

theorem loops_writes_get (envs : List LoopEnv) :
    (∀ env ∈ envs, env.arrived = []) →
    ∀ q i p, (radioWrites (loops envs q).1)[i]? = some p →
      p = (q.drop (32 * i)).take 32 := by
  induction envs with
  | nil => intro _ q i p h; simp [loops, radioWrites] at h
  | cons env envs ih =>
    intro hn q i p h
    rw [loops_radioWrites_cons env envs q (hn env (List.mem_cons_self _ _))] at h
    cases i with
    | zero => simp at h; simp [h]
    | succ i =>
      rw [List.getElem?_cons_succ] at h
      rw [ih (fun e he => hn e (List.mem_cons_of_mem _ he)) _ i p h, List.drop_drop]
      congr 2
      omega

/-- Successive iterations in which no byte arrives on the serial port: the
payloads handed to `radio.write`, concatenated, are the first
`32 * iterations` bytes of the original queue `q`, hence all of `q` once there
are at least `ceil(n / 32)` iterations; payload number `i` (from 0) is bytes
`32 * i ..< 32 * i + 32` of `q`, non-empty exactly when `i < ceil(n / 32)`. -/
theorem loops_of_no_arrival (envs : List LoopEnv) (q : List Nat)
    (hn : ∀ env ∈ envs, env.arrived = []) :
    (radioWrites (loops envs q).1).length = envs.length ∧
    (radioWrites (loops envs q).1).flatten = q.take (32 * envs.length) ∧
    (loops envs q).2 = q.drop (32 * envs.length) ∧
    ((q.length + 31) / 32 ≤ envs.length →
      (radioWrites (loops envs q).1).flatten = q ∧ (loops envs q).2 = []) ∧
    (∀ i p, (radioWrites (loops envs q).1)[i]? = some p →
      p = (q.drop (32 * i)).take 32 ∧
      (p ≠ [] ↔ i < (q.length + 31) / 32) ∧
      ((q.length + 31) / 32 ≤ i → p.length = 0)) := by
  refine ⟨loops_writes_length envs hn q, loops_writes_flatten envs hn q,
    loops_queue envs hn q, ?_, ?_⟩
  · intro h
    have hl : q.length ≤ 32 * envs.length := by omega
    rw [loops_writes_flatten envs hn, loops_queue envs hn]
    exact ⟨List.take_of_length_le hl, List.drop_eq_nil_iff.mpr hl⟩
  · intro i p h
    have hp := loops_writes_get envs hn q i p h
    have hnil : p = [] ↔ q.length ≤ 32 * i := by
      rw [hp, List.take_eq_nil_iff, List.drop_eq_nil_iff]
      constructor
      · rintro (h | h)
        · omega
        · exact h
      · intro h; exact Or.inr h
    refine ⟨hp, ?_, ?_⟩
    · rw [Ne, hnil]; omega
    · intro h
      have : p = [] := hnil.mpr (by omega)
      rw [this]; rfl

/-- C8 fails on the code: with 32 bytes queued at the start of the iteration
and one more byte arriving between the two evaluations of
`Serial.available()`, `radio.write` is handed 33 bytes, not the first
`min(32, 32) = 32` queued ones; and with 3 bytes queued and one arriving, it is
handed 4 bytes.  Both times the queue is left empty, whether or not the write
succeeds. -/
theorem arrived_byte_is_sent :
    (radioWrites (loop ⟨true, none, [99]⟩ (List.range 32)).1 = [List.range 32 ++ [99]] ∧
     radioWrites (loop ⟨false, none, [99]⟩ (List.range 32)).1 = [List.range 32 ++ [99]] ∧
     radioWrites (loop ⟨true, none, [99]⟩ (List.range 32)).1
       ≠ [(List.range 32).take (min 32 (List.range 32).length)] ∧
     (loop ⟨true, none, [99]⟩ (List.range 32)).2 = []) ∧
    (radioWrites (loop ⟨true, none, [4]⟩ [1, 2, 3]).1 = [[1, 2, 3, 4]] ∧
     radioWrites (loop ⟨false, none, [4]⟩ [1, 2, 3]).1 = [[1, 2, 3, 4]] ∧
     (loop ⟨true, none, [4]⟩ [1, 2, 3]).2 = []) := by
  refine ⟨⟨by decide, by decide, by decide, by decide⟩, by decide, by decide, by decide⟩

end NrfTelem
